import Mathlib

/-!
Verification of the healthcarecompare cost-estimation engine.

This file gives a shallow embedding, in Lean 4, of the parts of the
repository that the specification's claims are about:

* `getDetailedCostBreakdown` / `calculatePlanCost` (cost calculation module):
  the per-person charge classification, deductible and coinsurance
  accumulation, individual/family MOOP capping and final aggregation.
* `createPersonScenarios` / `createScenarios` (data management module):
  best-case / worst-case scenario derivation.

Modelling conventions:

* JavaScript numbers are modelled as `ℚ`.  All dollar arithmetic performed by
  the cost engine on the inputs appearing in the claims is exact in binary64,
  so `ℚ` is a faithful model there.  The one place where binary64 rounding is
  observable at the integer level is `Math.floor(count * factor)` in the
  scenario generator (the flooring amplifies sub-ulp error to a whole unit),
  so there the multiplication is modelled by an explicit binary64
  round-to-nearest-even model (`roundDouble`).
* Optional JS object fields are modelled with `Option`; the JS `x || d`
  defaulting idiom (which also replaces `0` by `d`) is `jsOrQ`.
* Visit counts and refill counts are modelled as `ℕ` (they are integer counts
  stored exactly in binary64 for every representable input).
* `parseFloat` on the custom-cost text field is modelled by `jsParseFloat`
  (leading whitespace, optional sign, decimal digits with optional fraction
  and exponent; `NaN` is `none`).  `Infinity` literals and subnormal spill
  are not modelled; no claim touches them.
* Pure display strings (the `calculation` fields and `formatCurrency` /
  `formatVisitType` rendering) are irrelevant to every claim and are omitted
  from the embedded charge items; the dollar `cost` fields are kept.
-/

/-- JS `v || d` for an optional numeric field: `undefined` and `0` fall back
to the default `d` (in JS `0` is falsy). -/
def jsOrQ (v : Option ℚ) (d : ℚ) : ℚ :=
  match v with
  | none => d
  | some q => if q = 0 then d else q

/-- JS `v || d` for an optional integer count (`med.refillsPerYear || 12`):
`undefined` and `0` fall back to `d`. -/
def jsOrNat (v : Option ℕ) (d : ℕ) : ℕ :=
  match v with
  | none => d
  | some 0 => d
  | some (k+1) => k+1

/-- Truthiness of the `customCost` field (a text input: absent or a string).
`undefined` and the empty string are falsy; every other string is truthy. -/
def jsTruthyStr (v : Option String) : Bool :=
  match v with
  | none => false
  | some s => !(s = "")

/-- Consume leading decimal digits: returns (value, number of digits, rest). -/
def takeDigits : List Char → ℕ → ℕ → ℕ × ℕ × List Char
  | [], acc, n => (acc, n, [])
  | c :: cs, acc, n =>
    if c.isDigit then takeDigits cs (acc * 10 + (c.toNat - 48)) (n + 1)
    else (acc, n, c :: cs)

/-- Model of JS `parseFloat` on a string: skip leading whitespace, optional
sign, longest prefix `digits [. digits] [e|E [sign] digits]`; `none` models
`NaN` (no digits consumed).  `Infinity` is not modelled. -/
def jsParseFloat (s : String) : Option ℚ :=
  let cs := s.data.dropWhile fun c => c = ' ' ∨ c = '\t' ∨ c = '\n' ∨ c = '\r'
  let (sgn, cs) : ℚ × List Char :=
    match cs with
    | '-' :: r => (-1, r)
    | '+' :: r => (1, r)
    | _ => (1, cs)
  let (ip, ni, cs) := takeDigits cs 0 0
  let (fp, nf, cs) :=
    match cs with
    | '.' :: r => takeDigits r 0 0
    | _ => (0, 0, cs)
  if ni + nf = 0 then none
  else
    let base : ℚ := (ip : ℚ) + (fp : ℚ) / (10 : ℚ) ^ nf
    let e : ℤ :=
      match cs with
      | 'e' :: r | 'E' :: r =>
        let (es, r2) : ℤ × List Char :=
          match r with
          | '-' :: t => (-1, t)
          | '+' :: t => (1, t)
          | _ => (1, r)
        let (ev, ne, _) := takeDigits r2 0 0
        if ne = 0 then 0 else es * ev
      | _ => 0
    let scale : ℚ := if 0 ≤ e then ((10 : ℚ) ^ e.toNat) else 1 / ((10 : ℚ) ^ (-e).toNat)
    some (sgn * base * scale)

/-- Model of `parseFloat(med.customCost) || null` (engine line for custom drug costs):
a parse failure (`NaN`) and a parsed `0` both become `null`. -/
def parsedCustomCost (v : Option String) : Option ℚ :=
  match v with
  | none => none
  | some s =>
    match jsParseFloat s with
    | none => none
    | some q => if q = 0 then none else some q

/-- Decides whether `p` is an initial segment of `l`. -/
def leadsWith : List Char → List Char → Bool
  | [], _ => true
  | _ :: _, [] => false
  | p :: ps, c :: cs => p = c && leadsWith ps cs

/-- JS `String.prototype.replace` with a string pattern: replaces only the
`first` occurrence of `pat` (if any). -/
def replaceFirstL (pat repl : List Char) : List Char → List Char
  | [] => if leadsWith pat [] then repl else []
  | c :: cs =>
    if leadsWith pat (c :: cs) then repl ++ (c :: cs).drop pat.length
    else c :: replaceFirstL pat repl cs

/-- String wrapper for `replaceFirstL` (JS `s.replace(pat, repl)`). -/
def jsReplaceFirst (s pat repl : String) : String :=
  ⟨replaceFirstL pat.data repl.data s.data⟩

/-- Decides whether `pat` occurs as a contiguous substring of `s` (at any
position, including the very end). -/
def containsSub (pat : List Char) : List Char → Bool
  | [] => leadsWith pat []
  | c :: cs => leadsWith pat (c :: cs) || containsSub pat cs

/-! ### Exact model of IEEE-754 binary64 round-to-nearest-even

`roundDouble q` is the binary64 double nearest to the rational `q` (ties to
even), as an exact rational.  Normal range only: exponents are found by a
fuel-driven binary search that is exact for `2 ^ (-1080) < |q| < 2 ^ 1080`,
which covers every quantity the scenario generator can produce; overflow to
infinity and subnormal underflow are not modelled. -/

/-- Floor of `log₂ n` for `1 ≤ n < 2 ^ 4096`, by binary descent over fixed powers
(the kernel cannot unfold `Nat.log2`, which uses well-founded recursion). -/
def log2Big (n : ℕ) : ℕ :=
  (([2048, 1024, 512, 256, 128, 64, 32, 16, 8, 4, 2, 1] : List ℕ).foldl
    (fun p k => if 2 ^ k ≤ p.1 then (p.1 / 2 ^ k, p.2 + k) else p) (n, 0)).2

/-- Floor of `log₂ q` for positive rationals in `(2 ^ (-1080), 2 ^ 3000)`. -/
def floorLog2 (q : ℚ) : ℤ :=
  (log2Big (⌊q * (2 : ℚ) ^ (1080 : ℕ)⌋).toNat : ℤ) - 1080

/-- Powers `2 ^ e` in `ℚ` for an integer exponent. -/
def pow2z (e : ℤ) : ℚ :=
  if 0 ≤ e then ((2 : ℚ) ^ e.toNat) else 1 / ((2 : ℚ) ^ (-e).toNat)

/-- Round a positive rational to the nearest binary64 value (ties to even). -/
def roundDoublePos (q : ℚ) : ℚ :=
  let e : ℤ := floorLog2 q
  let m : ℚ := q * pow2z (52 - e)
  let fl : ℤ := ⌊m⌋
  let r : ℤ :=
    if (1 : ℚ) / 2 < m - fl then fl + 1
    else if m - fl < (1 : ℚ) / 2 then fl
    else if 2 ∣ fl then fl else fl + 1
  (r : ℚ) * pow2z (e - 52)

/-- Round a rational to the nearest binary64 value (ties to even). -/
def roundDouble (q : ℚ) : ℚ :=
  if q = 0 then 0
  else if q < 0 then -(roundDoublePos (-q))
  else roundDoublePos q

/-- Binary64 multiplication: exact product, then one rounding. -/
def jsMul (a b : ℚ) : ℚ := roundDouble (a * b)

/-- The binary64 value of the JS literal `0.5` (exactly representable). -/
def dbl05 : ℚ := roundDouble (5 / 10)

/-- The binary64 value of the JS literal `0.3` (slightly below `3/10`). -/
def dbl03 : ℚ := roundDouble (3 / 10)

/-- The binary64 value of the JS literal `0.2` (slightly above `2/10`). -/
def dbl02 : ℚ := roundDouble (2 / 10)

/-- The binary64 value of the JS literal `0.7` (slightly below `7/10`). -/
def dbl07 : ℚ := roundDouble (7 / 10)

/-! ## Data model

Mirrors the JS objects handled by the engine (`defaultPerson` / `defaultPlan`
in the data-management module).  Fields the engine never reads
(`rxDeductible`, `coinsurance`, `rxDeductibleWaived`, dental/vision extras,
`id`s) are omitted.  Optional fields reached through `?.` / `||` in the
engine are `Option`s. -/

/-- The nine per-person annual visit counts (all keys always present). -/
structure VisitCounts where
  primaryCare : ℕ
  specialist : ℕ
  urgentCare : ℕ
  emergencyRoom : ℕ
  mentalHealth : ℕ
  diagnosticTest : ℕ
  imaging : ℕ
  rehabilitationOutpatient : ℕ
  habilitationOutpatient : ℕ
deriving DecidableEq

/-- A medication: tier 1–5, refills per year, and the custom-cost text
field (a string in the UI; absent on some imported data). -/
structure Medication where
  tier : ℕ
  refillsPerYear : Option ℕ
  customCost : Option String
deriving DecidableEq

/-- A household member. -/
structure Person where
  name : String
  visits : VisitCounts
  medications : List Medication
deriving DecidableEq

/-- A `{person, family}` dollar pair (`medicalDeductible`, `outOfPocketMax`). -/
structure MoneyPair where
  person : Option ℚ
  family : Option ℚ
deriving DecidableEq

/-- The per-visit-type copay table (values overloaded: `(0,1)` is read as a
coinsurance rate by the engine for deductible-applicable types). -/
structure Copays where
  primaryCare : Option ℚ
  specialist : Option ℚ
  urgentCare : Option ℚ
  mentalHealth : Option ℚ
  emergencyRoom : Option ℚ
  diagnosticTest : Option ℚ
  imaging : Option ℚ
  rehabilitationOutpatient : Option ℚ
  habilitationOutpatient : Option ℚ
deriving DecidableEq

/-- Prescription copays by tier. -/
structure RxCopays where
  tier1 : Option ℚ
  tier2 : Option ℚ
  tier3 : Option ℚ
  tier4 : Option ℚ
  tier5 : Option ℚ
deriving DecidableEq

/-- An insurance plan, restricted to the fields the engine reads. -/
structure Plan where
  premium : Option ℚ
  medicalDeductible : Option MoneyPair
  outOfPocketMax : Option MoneyPair
  copays : Option Copays
  rxCopays : Option RxCopays
deriving DecidableEq

/-- User-configurable assumed dollar costs for coinsurance-billed services
(the five keys the engine reads). -/
structure CostSettings where
  emergencyRoom : ℚ
  diagnosticTest : ℚ
  imaging : ℚ
  rehabilitationOutpatient : ℚ
  habilitationOutpatient : ℚ
deriving DecidableEq

/-- The engine's built-in fallback costs (`costSettings || {...}`). -/
def defaultEngineCosts : CostSettings :=
  { emergencyRoom := 1500, diagnosticTest := 300, imaging := 200,
    rehabilitationOutpatient := 150, habilitationOutpatient := 150 }

/-- Model of `costSettings || {…defaults}` — any provided object is truthy. -/
def resolveCosts (c : Option CostSettings) : CostSettings :=
  match c with
  | none => defaultEngineCosts
  | some cs => cs

/-- Model of `plan.copays?.f || 0`. -/
def planCopay (plan : Plan) (f : Copays → Option ℚ) : ℚ :=
  jsOrQ (plan.copays.bind f) 0

/-- Model of `plan.rxCopays ? (plan.rxCopays['tier' + med.tier] || 0) : 0`
(a tier outside 1–5 looks up an absent key, hence `0`). -/
def rxCopayFor (plan : Plan) (tier : ℕ) : ℚ :=
  match plan.rxCopays with
  | none => 0
  | some rx =>
    jsOrQ (match tier with
           | 1 => rx.tier1
           | 2 => rx.tier2
           | 3 => rx.tier3
           | 4 => rx.tier4
           | 5 => rx.tier5
           | _ => none) 0

/-- Model of `plan.medicalDeductible?.person || 0`. -/
def individualDeductibleLimit (plan : Plan) : ℚ :=
  jsOrQ (plan.medicalDeductible.bind MoneyPair.person) 0

/-- Model of `isFamilyPlan ? (plan.medicalDeductible?.family || individual) : individual`
where `isFamilyPlan = people.length > 1` (`n` is the household size). -/
def familyDeductibleLimit (plan : Plan) (n : ℕ) : ℚ :=
  if 1 < n then jsOrQ (plan.medicalDeductible.bind MoneyPair.family) (individualDeductibleLimit plan)
  else individualDeductibleLimit plan

/-- Model of `plan.outOfPocketMax?.person || 0`. -/
def individualMOOPLimit (plan : Plan) : ℚ :=
  jsOrQ (plan.outOfPocketMax.bind MoneyPair.person) 0

/-- Model of `isFamilyPlan ? (plan.outOfPocketMax?.family || individual) : individual`. -/
def familyMOOPLimit (plan : Plan) (n : ℕ) : ℚ :=
  if 1 < n then jsOrQ (plan.outOfPocketMax.bind MoneyPair.family) (individualMOOPLimit plan)
  else individualMOOPLimit plan

/-! ## Per-person charge gathering

Charge items are modelled by their dollar `cost` alone: the `name` and
`calculation` fields of the JS charge objects are pure display strings that
no claim depends on. -/

/-- Step 1 of the per-person loop: exempt copays from the four
copay-only visit types, in source order. -/
def exemptServiceCosts (plan : Plan) (v : VisitCounts) : List ℚ :=
  (if 0 < v.primaryCare then [(v.primaryCare : ℚ) * planCopay plan Copays.primaryCare] else []) ++
  (if 0 < v.specialist then [(v.specialist : ℚ) * planCopay plan Copays.specialist] else []) ++
  (if 0 < v.urgentCare then [(v.urgentCare : ℚ) * planCopay plan Copays.urgentCare] else []) ++
  (if 0 < v.mentalHealth then [(v.mentalHealth : ℚ) * planCopay plan Copays.mentalHealth] else [])

/-- Exempt contribution of one medication: only when the raw `customCost`
field is falsy (`!med.customCost`) and the tier copay exceeds `1`. -/
def medExemptCosts (plan : Plan) (med : Medication) : List ℚ :=
  let refills := jsOrNat med.refillsPerYear 12
  if jsTruthyStr med.customCost then []
  else
    let rx := rxCopayFor plan med.tier
    if 1 < rx then [rx * (refills : ℚ)] else []

/-- The five deductible-applicable services of one person, in source order:
(visits, assumed cost, plan rate). -/
def dedServiceData (plan : Plan) (costs : CostSettings) (v : VisitCounts) :
    List (ℕ × ℚ × ℚ) :=
  [(v.emergencyRoom, costs.emergencyRoom, planCopay plan Copays.emergencyRoom),
   (v.diagnosticTest, costs.diagnosticTest, planCopay plan Copays.diagnosticTest),
   (v.imaging, costs.imaging, planCopay plan Copays.imaging),
   (v.rehabilitationOutpatient, costs.rehabilitationOutpatient, planCopay plan Copays.rehabilitationOutpatient),
   (v.habilitationOutpatient, costs.habilitationOutpatient, planCopay plan Copays.habilitationOutpatient)]

/-- Step 2a: gather deductible-applicable service charges, updating the
running coinsurance rate — any active service whose plan value is in `(0,1)`
overwrites it (last one wins). -/
def runDedServices : List (ℕ × ℚ × ℚ) → ℚ → List ℚ × ℚ
  | [], rate => ([], rate)
  | (vis, cost, pr) :: rest, rate =>
    if 0 < vis then
      ((vis : ℚ) * cost :: (runDedServices rest (if 0 < pr ∧ pr < 1 then pr else rate)).1,
       (runDedServices rest (if 0 < pr ∧ pr < 1 then pr else rate)).2)
    else runDedServices rest rate

/-- Deductible-applicable contribution of one medication: the parsed custom
cost if `parseFloat(med.customCost) || null` is non-null, otherwise the
assumed `$100`-per-refill charge when the tier value is coinsurance-like. -/
def medDedCosts (plan : Plan) (med : Medication) : List ℚ :=
  let refills := jsOrNat med.refillsPerYear 12
  match parsedCustomCost med.customCost with
  | some c => [c * (refills : ℚ)]
  | none =>
    let rx := rxCopayFor plan med.tier
    if rx ≤ 1 ∧ 0 < rx then [(100 : ℚ) * (refills : ℚ)] else []

/-- Rate effect of one medication: a coinsurance-like tier value is adopted
only when the running rate is still `0`. -/
def medRateUpdate (plan : Plan) (med : Medication) (rate : ℚ) : ℚ :=
  match parsedCustomCost med.customCost with
  | some _ => rate
  | none =>
    let rx := rxCopayFor plan med.tier
    if rx ≤ 1 ∧ 0 < rx then (if rate = 0 then rx else rate) else rate

/-- Step 2b: gather medication deductible-applicable charges in list order,
threading the coinsurance rate. -/
def runDedMeds (plan : Plan) : List Medication → ℚ → List ℚ × ℚ
  | [], rate => ([], rate)
  | med :: rest, rate =>
    (medDedCosts plan med ++ (runDedMeds plan rest (medRateUpdate plan med rate)).1,
     (runDedMeds plan rest (medRateUpdate plan med rate)).2)

/-- Everything computed inside the loop for one person, before MOOP capping. -/
structure PersonCalc where
  exemptCosts : List ℚ
  dedCosts : List ℚ
  rateOut : ℚ
  contribution : ℚ
  effective : ℚ
  coins : ℚ
  preCapOOP : ℚ
deriving DecidableEq

/-- One person's charges and accumulator arithmetic, given the incoming
family-deductible total and coinsurance rate. -/
def calcPerson (plan : Plan) (costs : CostSettings) (indDed famDed : ℚ)
    (famDedPaid rateIn : ℚ) (p : Person) : PersonCalc :=
  let exCosts := exemptServiceCosts plan p.visits ++ p.medications.flatMap (medExemptCosts plan)
  let dsv := runDedServices (dedServiceData plan costs p.visits) rateIn
  let dmd := runDedMeds plan p.medications dsv.2
  let dedCosts := dsv.1 ++ dmd.1
  let rOut := dmd.2
  let totalDed := dedCosts.sum
  let contribution := min totalDed indDed
  let famRemaining := max 0 (famDed - famDedPaid)
  let effective := min contribution famRemaining
  let afterDed := max 0 (totalDed - effective)
  let coins := afterDed * rOut
  { exemptCosts := exCosts, dedCosts := dedCosts, rateOut := rOut,
    contribution := contribution, effective := effective, coins := coins,
    preCapOOP := exCosts.sum + effective + coins }

/-- One entry of the returned `personBreakdowns` array (display-only string
fields dropped; charge items kept as their costs). -/
structure PersonBreakdown where
  personName : String
  totalCharges : ℚ
  deductiblePaid : ℚ
  coinsurancePaid : ℚ
  totalOOP : ℚ
  note : Option String
  exemptCosts : List ℚ
  dedCosts : List ℚ
deriving DecidableEq

/-- Mutable state of the `people.forEach` loop. -/
structure EngineState where
  familyDeductiblePaid : ℚ
  familyOOPPaid : ℚ
  coinsuranceRate : ℚ
  personBreakdowns : List PersonBreakdown
deriving DecidableEq

/-- Loop state before the first person. -/
def initState : EngineState :=
  { familyDeductiblePaid := 0, familyOOPPaid := 0, coinsuranceRate := 0,
    personBreakdowns := [] }

/-- The `personBreakdowns` entry the loop body appends for one person
(individual MOOP capping included). -/
def mkPersonBreakdown (plan : Plan) (costs : CostSettings) (isFam : Bool)
    (indDed famDed indMOOP : ℚ) (st : EngineState) (p : Person) : PersonBreakdown :=
  let c := calcPerson plan costs indDed famDed st.familyDeductiblePaid st.coinsuranceRate p
  let hit := isFam ∧ indMOOP < c.preCapOOP
  { personName := p.name,
    totalCharges := c.exemptCosts.sum + c.dedCosts.sum,
    deductiblePaid := c.contribution,
    coinsurancePaid := c.coins,
    totalOOP := if hit then indMOOP else c.preCapOOP,
    note := if hit then some "Individual MOOP Hit" else none,
    exemptCosts := c.exemptCosts,
    dedCosts := c.dedCosts }

/-- The loop body: process one person and fold their results into the
family accumulators. -/
def processPerson (plan : Plan) (costs : CostSettings) (isFam : Bool)
    (indDed famDed indMOOP : ℚ) (st : EngineState) (p : Person) : EngineState :=
  let c := calcPerson plan costs indDed famDed st.familyDeductiblePaid st.coinsuranceRate p
  let pb := mkPersonBreakdown plan costs isFam indDed famDed indMOOP st p
  { familyDeductiblePaid := st.familyDeductiblePaid + c.effective,
    familyOOPPaid := st.familyOOPPaid + pb.totalOOP,
    coinsuranceRate := c.rateOut,
    personBreakdowns := st.personBreakdowns ++ [pb] }

/-- Loop state after processing a list of people. -/
def engineStateAfter (plan : Plan) (costs : CostSettings) (isFam : Bool)
    (indDed famDed indMOOP : ℚ) (people : List Person) : EngineState :=
  people.foldl (processPerson plan costs isFam indDed famDed indMOOP) initState

/-- The detailed result object. -/
structure Breakdown where
  annualPremium : ℚ
  monthlyPremium : ℚ
  personBreakdowns : List PersonBreakdown
  individualDeductibleLimit : ℚ
  familyDeductibleLimit : ℚ
  individualMOOPLimit : ℚ
  familyMOOPLimit : ℚ
  familyDeductiblePaid : ℚ
  familyOOPTotal : ℚ
  finalFamilyOOP : ℚ
  grandTotal : ℚ
deriving DecidableEq

/-- Model of `getDetailedCostBreakdown(plan, people, costSettings)`. -/
def getDetailedCostBreakdown (plan : Plan) (people : List Person)
    (costSettings : Option CostSettings) : Breakdown :=
  let costs := resolveCosts costSettings
  let isFam := decide (1 < people.length)
  let indDed := individualDeductibleLimit plan
  let famDed := familyDeductibleLimit plan people.length
  let indMOOP := individualMOOPLimit plan
  let famMOOP := familyMOOPLimit plan people.length
  let st := engineStateAfter plan costs isFam indDed famDed indMOOP people
  let annualPremium := jsOrQ plan.premium 0 * 12
  let finalFamilyOOP := min st.familyOOPPaid famMOOP
  { annualPremium := annualPremium,
    monthlyPremium := jsOrQ plan.premium 0,
    personBreakdowns := st.personBreakdowns,
    individualDeductibleLimit := indDed,
    familyDeductibleLimit := famDed,
    individualMOOPLimit := indMOOP,
    familyMOOPLimit := famMOOP,
    familyDeductiblePaid := min st.familyDeductiblePaid famDed,
    familyOOPTotal := st.familyOOPPaid,
    finalFamilyOOP := finalFamilyOOP,
    grandTotal := annualPremium + finalFamilyOOP }

/-- The terse summary returned by `calculatePlanCost`. -/
structure PlanCost where
  premium : ℚ
  visits : ℚ
  medications : ℚ
  total : ℚ
deriving DecidableEq

/-- Model of `calculatePlanCost(plan, people, costSettings)`. -/
def calculatePlanCost (plan : Plan) (people : List Person)
    (costSettings : Option CostSettings) : PlanCost :=
  let b := getDetailedCostBreakdown plan people costSettings
  { premium := b.annualPremium, visits := b.finalFamilyOOP,
    medications := 0, total := b.grandTotal }

/-! ## Scenario generator (`createPersonScenarios` / `createScenarios`)

The multiplications `count * factor` happen in binary64, and `Math.floor`
makes the sub-ulp representation error of `0.3`, `0.2`, `0.7` observable, so
they are modelled with `jsMul` on the exact binary64 constants.  Counts
themselves are exact in binary64 (for every representable input), as is the
`+ delta` arithmetic of the worst case. -/

/-- Best-case visit counts: `Math.max(0, Math.floor(count * factor))` per
type, with the ER count forced to `0`. -/
def bestVisits (v : VisitCounts) : VisitCounts :=
  { primaryCare := (max 0 ⌊jsMul (v.primaryCare : ℚ) dbl05⌋).toNat,
    specialist := (max 0 ⌊jsMul (v.specialist : ℚ) dbl03⌋).toNat,
    urgentCare := (max 0 ⌊jsMul (v.urgentCare : ℚ) dbl02⌋).toNat,
    emergencyRoom := 0,
    mentalHealth := (max 0 ⌊jsMul (v.mentalHealth : ℚ) dbl07⌋).toNat,
    diagnosticTest := (max 0 ⌊jsMul (v.diagnosticTest : ℚ) dbl05⌋).toNat,
    imaging := (max 0 ⌊jsMul (v.imaging : ℚ) dbl03⌋).toNat,
    rehabilitationOutpatient := (max 0 ⌊jsMul (v.rehabilitationOutpatient : ℚ) dbl05⌋).toNat,
    habilitationOutpatient := (max 0 ⌊jsMul (v.habilitationOutpatient : ℚ) dbl05⌋).toNat }

/-- Worst-case visit counts: fixed per-type deltas. -/
def worstVisits (v : VisitCounts) : VisitCounts :=
  { primaryCare := v.primaryCare + 2,
    specialist := v.specialist + 3,
    urgentCare := v.urgentCare + 1,
    emergencyRoom := v.emergencyRoom + 1,
    mentalHealth := v.mentalHealth + 2,
    diagnosticTest := v.diagnosticTest + 2,
    imaging := v.imaging + 1,
    rehabilitationOutpatient := v.rehabilitationOutpatient + 4,
    habilitationOutpatient := v.habilitationOutpatient + 2 }

/-- Model of `person.name.replace(' (Best Case)', '') + ' (Best Case)'`. -/
def bestCaseName (s : String) : String :=
  jsReplaceFirst s " (Best Case)" "" ++ " (Best Case)"

/-- Model of `person.name.replace(' (Worst Case)', '') + ' (Worst Case)'`. -/
def worstCaseName (s : String) : String :=
  jsReplaceFirst s " (Worst Case)" "" ++ " (Worst Case)"

/-- The three derived scenarios for one person. -/
structure PersonScenarios where
  bestCase : Person
  mostLikely : Person
  worstCase : Person
deriving DecidableEq

/-- Model of `createPersonScenarios(person)` — the `...person` spreads carry the
medication list over unchanged. -/
def createPersonScenarios (p : Person) : PersonScenarios :=
  { bestCase := { p with name := bestCaseName p.name, visits := bestVisits p.visits },
    mostLikely := p,
    worstCase := { p with name := worstCaseName p.name, visits := worstVisits p.visits } }

/-- The three derived scenario people-arrays. -/
structure Scenarios where
  bestCase : List Person
  mostLikely : List Person
  worstCase : List Person
deriving DecidableEq

/-- Model of `createScenarios(people)`: per-person scenarios pushed in order. -/
def createScenarios (people : List Person) : Scenarios :=
  { bestCase := people.map fun p => (createPersonScenarios p).bestCase,
    mostLikely := people.map fun p => (createPersonScenarios p).mostLikely,
    worstCase := people.map fun p => (createPersonScenarios p).worstCase }

/-! ## Concrete inputs used by counterexamples and witnesses -/

/-- All nine visit counts zero. -/
def visits0 : VisitCounts := ⟨0, 0, 0, 0, 0, 0, 0, 0, 0⟩

/-- An all-`none` copay table, for plans that price a single service. -/
def copaysNone : Copays := ⟨none, none, none, none, none, none, none, none, none⟩

/-- Plan of the first end-to-end example: $300/mo premium, $25 primary-care
copay, every deductible and out-of-pocket-maximum field `0`. -/
def planC2 : Plan :=
  { premium := some 300,
    medicalDeductible := some { person := some 0, family := some 0 },
    outOfPocketMax := some { person := some 0, family := some 0 },
    copays := some { copaysNone with primaryCare := some 25 },
    rxCopays := none }

/-- Person of the first end-to-end example: four primary-care visits. -/
def personC2 : Person :=
  { name := "A", visits := { visits0 with primaryCare := 4 }, medications := [] }

/-- Plan of the second end-to-end example: ER copay field `0.2`
(a coinsurance rate), $500 individual deductible, $5000 individual MOOP. -/
def planC6 : Plan :=
  { premium := none,
    medicalDeductible := some { person := some 500, family := none },
    outOfPocketMax := some { person := some 5000, family := none },
    copays := some { copaysNone with emergencyRoom := some (2/10) },
    rxCopays := none }

/-- Person of the second end-to-end example: one ER visit. -/
def personC6 : Person :=
  { name := "P", visits := { visits0 with emergencyRoom := 1 }, medications := [] }

/-- Two-person plan with a positive family MOOP, for the C1 witness. -/
def planC1w : Plan :=
  { planC6 with outOfPocketMax := some { person := some 5000, family := some 7000 } }

/-! ## Inputs for C8 -/

/-- Baseline person with 90 annual mental-health visits. -/
def personC8 : Person :=
  { name := "S", visits := { visits0 with mentalHealth := 90 }, medications := [] }

/-! ## Inputs for C9 -/

/-- A person whose name already contains the best-case suffix twice. -/
def personC9 : Person :=
  { name := "A (Best Case) (Best Case) B", visits := visits0, medications := [] }

/-- Baseline person for the C9 witness: the name contains parentheses but
no occurrence of either scenario suffix. -/
def personC9w : Person :=
  { name := "Bob (Jr)", visits := visits0, medications := [] }

/-! ## Inputs and predicates for C5 -/

/-- Plan for the C5 counterexample: the ER copay field `0.2` is a
coinsurance rate; the diagnostic-test copay field is absent. -/
def planC5 : Plan :=
  { premium := none,
    medicalDeductible := none,
    outOfPocketMax := some { person := some 10000, family := some 20000 },
    copays := some { copaysNone with emergencyRoom := some (2/10) },
    rxCopays := none }

/-- First person of the C5 counterexample: one ER visit (sets the rate). -/
def personAliceC5 : Person :=
  { name := "Alice", visits := { visits0 with emergencyRoom := 1 }, medications := [] }

/-- Second person of the C5 counterexample: one diagnostic test, no
medications — nothing of hers carries a coinsurance rate. -/
def personBobC5 : Person :=
  { name := "Bob", visits := { visits0 with diagnosticTest := 1 }, medications := [] }

/-- A person none of whose deductible-applicable services or medications
carries a coinsurance-like value (no active service with plan value in
`(0,1)`, no tier-priced medication with value in `(0,1]`). -/
@[reducible] def setsNoRate (plan : Plan) (costs : CostSettings) (p : Person) : Prop :=
  (∀ e ∈ dedServiceData plan costs p.visits, ¬(0 < e.1 ∧ 0 < e.2.2 ∧ e.2.2 < 1))
  ∧ (∀ med ∈ p.medications, parsedCustomCost med.customCost = none →
      ¬(rxCopayFor plan med.tier ≤ 1 ∧ 0 < rxCopayFor plan med.tier))

/-- Plan for the C5 witness: the diagnostic-test copay `40` is a flat copay,
not a `(0,1)` rate. -/
def planC5w : Plan :=
  { premium := none, medicalDeductible := none, outOfPocketMax := none,
    copays := some { copaysNone with diagnosticTest := some 40 },
    rxCopays := none }

/-- Person for the C5 witness: one diagnostic test, no medications. -/
def personC5w : Person :=
  { name := "Carol", visits := { visits0 with diagnosticTest := 1 }, medications := [] }

/-! ## Inputs for C7 -/

/-- Plan for C7: tier-1 prescription copay `$50` (a flat copay, `> 1`). -/
def planC7 : Plan :=
  { premium := none, medicalDeductible := none, outOfPocketMax := none,
    copays := none,
    rxCopays := some { tier1 := some 50, tier2 := none, tier3 := none,
                       tier4 := none, tier5 := none } }

/-- A tier-1 medication whose custom-cost field holds the non-numeric
string `"abc"`. -/
def medC7 : Medication :=
  { tier := 1, refillsPerYear := some 12, customCost := some "abc" }

/-- Person carrying `medC7` and no visits. -/
def personC7 : Person :=
  { name := "M", visits := visits0, medications := [medC7] }

/-- Plan for the C3 witness: $500 individual deductible, $800 family. -/
def planC3w : Plan :=
  { premium := none,
    medicalDeductible := some { person := some 500, family := some 800 },
    outOfPocketMax := some { person := some 9000, family := some 18000 },
    copays := none, rxCopays := none }

/-- First C3 witness person: one ER visit ($1500 of charges). -/
def personC3a : Person :=
  { name := "A", visits := { visits0 with emergencyRoom := 1 }, medications := [] }

/-- Second C3 witness person: two ER visits ($3000 of charges). -/
def personC3b : Person :=
  { name := "B", visits := { visits0 with emergencyRoom := 2 }, medications := [] }

/-- Plan for the C4 witness: $100 individual MOOP, $1000 family MOOP,
$25 primary-care copay. -/
def planC4w : Plan :=
  { premium := none,
    medicalDeductible := none,
    outOfPocketMax := some { person := some 100, family := some 1000 },
    copays := some { copaysNone with primaryCare := some 25 },
    rxCopays := none }

/-- First C4 witness person: eight primary-care visits ($200 of copays,
over the $100 individual MOOP). -/
def personC4a : Person :=
  { name := "A", visits := { visits0 with primaryCare := 8 }, medications := [] }

/-- Second C4 witness person: one primary-care visit ($25, under the MOOP). -/
def personC4b : Person :=
  { name := "B", visits := { visits0 with primaryCare := 1 }, medications := [] }

/-! ## Nonnegativity hypotheses and inputs for C10 -/

/-- Nonnegativity of the plan's dollar fields as the engine reads them
(copays, prescription copays, individual deductible). -/
@[reducible] def NonNegPlan (plan : Plan) : Prop :=
  0 ≤ planCopay plan Copays.primaryCare ∧ 0 ≤ planCopay plan Copays.specialist
  ∧ 0 ≤ planCopay plan Copays.urgentCare ∧ 0 ≤ planCopay plan Copays.mentalHealth
  ∧ 0 ≤ planCopay plan Copays.emergencyRoom ∧ 0 ≤ planCopay plan Copays.diagnosticTest
  ∧ 0 ≤ planCopay plan Copays.imaging ∧ 0 ≤ planCopay plan Copays.rehabilitationOutpatient
  ∧ 0 ≤ planCopay plan Copays.habilitationOutpatient
  ∧ 0 ≤ rxCopayFor plan 1 ∧ 0 ≤ rxCopayFor plan 2 ∧ 0 ≤ rxCopayFor plan 3
  ∧ 0 ≤ rxCopayFor plan 4 ∧ 0 ≤ rxCopayFor plan 5
  ∧ 0 ≤ individualDeductibleLimit plan

/-- Nonnegativity of the assumed service costs. -/
@[reducible] def NonNegCosts (costs : CostSettings) : Prop :=
  0 ≤ costs.emergencyRoom ∧ 0 ≤ costs.diagnosticTest ∧ 0 ≤ costs.imaging
  ∧ 0 ≤ costs.rehabilitationOutpatient ∧ 0 ≤ costs.habilitationOutpatient

/-- Nonnegativity of every parsed custom medication cost of a household. -/
@[reducible] def NonNegMeds (people : List Person) : Prop :=
  ∀ p ∈ people, ∀ med ∈ p.medications, 0 ≤ (parsedCustomCost med.customCost).getD 0

/-- Plan for the C10 witness: `outOfPocketMax` missing entirely, $300/mo
premium, $25 primary-care copay. -/
def planC10w : Plan :=
  { premium := some 300,
    medicalDeductible := none,
    outOfPocketMax := none,
    copays := some { copaysNone with primaryCare := some 25 },
    rxCopays := none }

/-- Person for the C10 witness: four primary-care visits and a $60-custom
medication. -/
def personC10w : Person :=
  { name := "W", visits := { visits0 with primaryCare := 4 },
    medications := [{ tier := 1, refillsPerYear := some 6, customCost := some "60" }] }

/-! ## Theorems -/

-- Sanity checks of the binary64 model against well-known double facts.
example : dbl05 = 5 / 10 := by decide!
example : dbl03 = 5404319552844595 / 2 ^ 54 := by decide!
example : dbl07 = 6305039478318694 / 2 ^ 53 := by decide!
example : dbl02 = 3602879701896397 / 2 ^ 54 := by decide!
-- 0.1 + 0.2 ≠ 0.3 in binary64:
example : roundDouble (roundDouble (1 / 10) + dbl02) ≠ dbl03 := by decide!
-- Math.floor(90 * 0.7) = 62 in JS, although ⌊90 × 0.7⌋ = 63 over ℚ:
example : ⌊jsMul (90 : ℚ) dbl07⌋ = 62 := by decide!
example : ⌊(90 : ℚ) * (7 / 10)⌋ = 63 := by decide!
-- 0.1 * 3 lands above 0.3; Math.floor(100 * 0.57) = 56; 10 * 0.3 recovers 3.
example : dbl03 < jsMul (roundDouble (1 / 10)) 3 := by decide!
example : ⌊jsMul (100 : ℚ) (roundDouble (57 / 100))⌋ = 56 := by decide!
example : ⌊jsMul (10 : ℚ) dbl03⌋ = 3 := by decide!

/-! ## C1 -/

/-- C1: `getDetailedCostBreakdown` always returns
`finalFamilyOOP = min(familyOOPPaid, familyMOOPLimit)`, so the final family
out-of-pocket figure never exceeds `familyMOOPLimit`; for a single-person
household `familyMOOPLimit` is the individual MOOP limit, and for a
multi-person household with `outOfPocketMax.family > 0` it is that family
maximum.  (The `min` applies after individual capping, so even a two-person
household in which both members hit their individual MOOP is clamped to the
family limit.) -/
theorem claim_C1 (plan : Plan) (people : List Person) (cs : Option CostSettings) :
    (getDetailedCostBreakdown plan people cs).finalFamilyOOP
      = min (getDetailedCostBreakdown plan people cs).familyOOPTotal
          (getDetailedCostBreakdown plan people cs).familyMOOPLimit
    ∧ (getDetailedCostBreakdown plan people cs).finalFamilyOOP
        ≤ (getDetailedCostBreakdown plan people cs).familyMOOPLimit
    ∧ (people.length ≤ 1 →
        (getDetailedCostBreakdown plan people cs).familyMOOPLimit
          = individualMOOPLimit plan)
    ∧ (∀ f : ℚ, 1 < people.length →
        plan.outOfPocketMax.bind MoneyPair.family = some f → 0 < f →
        (getDetailedCostBreakdown plan people cs).familyMOOPLimit = f) := by
  refine ⟨rfl, min_le_right _ _, ?_, ?_⟩
  · intro h
    show familyMOOPLimit plan people.length = individualMOOPLimit plan
    unfold familyMOOPLimit
    rw [if_neg (by omega)]
  · intro f hlen hf hpos
    show familyMOOPLimit plan people.length = f
    unfold familyMOOPLimit
    rw [if_pos hlen, hf]
    unfold jsOrQ
    simp only []
    rw [if_neg (ne_of_gt hpos)]

/-- C1 witness: a two-person household with a positive family MOOP. -/
theorem claim_C1_witness :
    (getDetailedCostBreakdown planC1w [personC6, personC2] none).familyMOOPLimit = 7000 :=
  (claim_C1 planC1w [personC6, personC2] none).2.2.2 7000 (by decide) rfl (by norm_num)

/-! ## C2 -/

/-- C2 counterexample: on the claimed input (one person, four primary-care
visits, $25 copay, $300/mo premium, all deductible/MOOP fields `0`) the code
returns `grandTotal = 3600`, not the claimed `$3700`: the zero
out-of-pocket maximum clamps the $100 of copays out of the total
(`finalFamilyOOP = min(100, 0) = 0`). -/
theorem claim_C2_counterexample :
    (getDetailedCostBreakdown planC2 [personC2] none).grandTotal = 3600
    ∧ (getDetailedCostBreakdown planC2 [personC2] none).grandTotal ≠ 3700 := by
  constructor
  · decide!
  · decide!

/-- C2 (amended): on that input the exempt copay total is `$100` and
`annualPremium = $3600` as claimed, but the zero MOOP acts as a zero
spending cap: `finalFamilyOOP = 0` and `grandTotal = $3600`, not `$3700`. -/
theorem claim_C2 :
    ((getDetailedCostBreakdown planC2 [personC2] none).personBreakdowns.map
        fun pb => pb.exemptCosts.sum) = [100]
    ∧ (getDetailedCostBreakdown planC2 [personC2] none).annualPremium = 3600
    ∧ (getDetailedCostBreakdown planC2 [personC2] none).finalFamilyOOP = 0
    ∧ (getDetailedCostBreakdown planC2 [personC2] none).grandTotal = 3600 := by
  refine ⟨?_, ?_, ?_, ?_⟩ <;> decide!

/-! ## C6 -/

/-- C6: one person, one ER visit at an assumed $1500, ER copay field `0.2`
read as a 20% coinsurance rate, $500 individual deductible, $5000 individual
MOOP: the deductible-applicable charge is `$1500`, the effective deductible
paid is `$500`, coinsurance is `(1500 − 500) × 0.2 = $200`, and the person's
total OOP is `$700` with no MOOP note. -/
theorem claim_C6 :
    ((getDetailedCostBreakdown planC6 [personC6] none).personBreakdowns.map
        fun pb => (pb.dedCosts, pb.deductiblePaid, pb.coinsurancePaid, pb.totalOOP, pb.note))
      = [([1500], 500, 200, 700, none)]
    ∧ (calcPerson planC6 (resolveCosts none) (individualDeductibleLimit planC6)
        (familyDeductibleLimit planC6 1) 0 0 personC6).effective = 500
    ∧ (getDetailedCostBreakdown planC6 [personC6] none).finalFamilyOOP = 700 := by
  refine ⟨?_, ?_, ?_⟩ <;> decide!

/-- C8 counterexample: the claim's real-arithmetic formula
`max(0, ⌊baseline × 0.7⌋)` gives `63` for a mental-health baseline of `90`,
but the code computes `Math.floor(90 * 0.7)` in binary64, where
`90 * 0.7 = 62.99999999999999`, yielding a best-case count of `62`. -/
theorem claim_C8_counterexample :
    (createPersonScenarios personC8).bestCase.visits.mentalHealth = 62
    ∧ (max 0 ⌊(personC8.visits.mentalHealth : ℚ) * (7/10)⌋).toNat = 63 := by
  constructor
  · decide!
  · decide!

/-- C8 (amended): best-case visit counts are
`max(0, Math.floor(count *₆₄ factor))` with the multiplication performed in
binary64 (factors `0.5`, `0.3`, `0.2`, `0.7` as binary64 constants), the ER
count forced to `0`; worst-case counts add the fixed per-type deltas; and
medications are carried over unchanged in both derived scenarios.  The
binary64 product agrees with the claim's real-arithmetic
`max(0, ⌊count × factor⌋)` for all mental-health counts below `90` (and at
every count of the running example), `90` being the smallest divergence. -/
theorem claim_C8 (p : Person) :
    (createPersonScenarios p).bestCase.visits
      = { primaryCare := (max 0 ⌊jsMul (p.visits.primaryCare : ℚ) dbl05⌋).toNat,
          specialist := (max 0 ⌊jsMul (p.visits.specialist : ℚ) dbl03⌋).toNat,
          urgentCare := (max 0 ⌊jsMul (p.visits.urgentCare : ℚ) dbl02⌋).toNat,
          emergencyRoom := 0,
          mentalHealth := (max 0 ⌊jsMul (p.visits.mentalHealth : ℚ) dbl07⌋).toNat,
          diagnosticTest := (max 0 ⌊jsMul (p.visits.diagnosticTest : ℚ) dbl05⌋).toNat,
          imaging := (max 0 ⌊jsMul (p.visits.imaging : ℚ) dbl03⌋).toNat,
          rehabilitationOutpatient := (max 0 ⌊jsMul (p.visits.rehabilitationOutpatient : ℚ) dbl05⌋).toNat,
          habilitationOutpatient := (max 0 ⌊jsMul (p.visits.habilitationOutpatient : ℚ) dbl05⌋).toNat }
    ∧ (createPersonScenarios p).worstCase.visits
      = { primaryCare := p.visits.primaryCare + 2,
          specialist := p.visits.specialist + 3,
          urgentCare := p.visits.urgentCare + 1,
          emergencyRoom := p.visits.emergencyRoom + 1,
          mentalHealth := p.visits.mentalHealth + 2,
          diagnosticTest := p.visits.diagnosticTest + 2,
          imaging := p.visits.imaging + 1,
          rehabilitationOutpatient := p.visits.rehabilitationOutpatient + 4,
          habilitationOutpatient := p.visits.habilitationOutpatient + 2 }
    ∧ (createPersonScenarios p).bestCase.medications = p.medications
    ∧ (createPersonScenarios p).worstCase.medications = p.medications
    ∧ (createPersonScenarios p).mostLikely = p
    ∧ (∀ n : ℕ, n < 90 →
        (max 0 ⌊jsMul (n : ℚ) dbl07⌋).toNat = (max 0 ⌊(n : ℚ) * (7/10)⌋).toNat) :=
  ⟨rfl, rfl, rfl, rfl, rfl, by decide!⟩

/-- C8 witness: the binary64 and real-arithmetic best-case formulas agree at
a mental-health count of 10 (both give 7). -/
theorem claim_C8_witness :
    (10 : ℕ) < 90
    ∧ (max 0 ⌊jsMul ((10 : ℕ) : ℚ) dbl07⌋).toNat = (max 0 ⌊((10 : ℕ) : ℚ) * (7/10)⌋).toNat :=
  ⟨by decide, (claim_C8 personC8).2.2.2.2.2 10 (by decide)⟩

/-- C9 counterexample: `name.replace(' (Best Case)', '')` removes only the
first occurrence, so annotation is not idempotent.  Deriving a best case
from `personC9` gives the name `"A (Best Case) B (Best Case)"` — which
carries the suffix — and re-deriving from that yields
`"A B (Best Case) (Best Case)"`, with the suffix duplicated. -/
theorem claim_C9_counterexample :
    (createPersonScenarios ((createPersonScenarios personC9).bestCase)).bestCase.name
      ≠ (createPersonScenarios personC9).bestCase.name
    ∧ (createPersonScenarios ((createPersonScenarios personC9).bestCase)).bestCase.name
      = "A B (Best Case) (Best Case)" := by
  constructor
  · decide!
  · decide!

/-- Every list is an initial segment of itself. -/
lemma leadsWith_refl : ∀ l : List Char, leadsWith l l = true := by
  intro l
  induction l with
  | nil => rfl
  | cons c cs ih => simpa [leadsWith] using ih

/-- If the pattern leads `l ++ t`, the part of the pattern left after
consuming `l` leads `t`. -/
lemma leadsWith_drop : ∀ (l pat t : List Char), leadsWith pat (l ++ t) = true →
    leadsWith (pat.drop l.length) t = true := by
  intro l
  induction l with
  | nil => intro pat t h; exact h
  | cons c cs ih =>
    intro pat t h
    cases pat with
    | nil => rfl
    | cons p ps =>
      have h1 : p = c ∧ leadsWith ps (cs ++ t) = true := by simpa [leadsWith] using h
      show leadsWith (ps.drop cs.length) t = true
      exact ih ps t h1.2

/-- A pattern no longer than `l` that leads `l ++ t` already leads `l`. -/
lemma leadsWith_of_append : ∀ (pat l t : List Char), leadsWith pat (l ++ t) = true →
    pat.length ≤ l.length → leadsWith pat l = true := by
  intro pat
  induction pat with
  | nil => intro l t _ _; rfl
  | cons p ps ih =>
    intro l t h hlen
    cases l with
    | nil => simp at hlen
    | cons c cs =>
      have h1 : p = c ∧ leadsWith ps (cs ++ t) = true := by simpa [leadsWith] using h
      have h2 : leadsWith ps cs = true := ih cs t h1.2 (by simpa using hlen)
      simp [leadsWith, h1.1, h2]

/-- Replacement with a pattern that occurs nowhere in the string is the
identity. -/
lemma replaceFirstL_id_of_not_contains (pat : List Char) :
    ∀ s : List Char, containsSub pat s = false → replaceFirstL pat [] s = s := by
  intro s
  induction s with
  | nil => intro _; unfold replaceFirstL; split <;> rfl
  | cons c cs ih =>
    intro h
    have hsplit : leadsWith pat (c :: cs) = false ∧ containsSub pat cs = false := by
      simpa [containsSub, Bool.or_eq_false_iff] using h
    unfold replaceFirstL
    rw [hsplit.1]
    simp only [Bool.false_eq_true, if_false]
    exact congrArg (c :: ·) (ih hsplit.2)

/-- Appending a border-free pattern (no nonempty proper suffix of the
pattern is one of its prefixes) to a string that does not contain it, and
replacing the first occurrence, removes exactly the appended copy: no
occurrence can start inside the original string, because a boundary-spanning
match would exhibit a border. -/
lemma replaceFirstL_append_self (pat : List Char) (hne : pat ≠ [])
    (hnb : ∀ k, k < pat.length → 0 < k → leadsWith (pat.drop k) pat = false) :
    ∀ s : List Char, containsSub pat s = false →
      replaceFirstL pat [] (s ++ pat) = s := by
  intro s
  induction s with
  | nil =>
    intro _
    show replaceFirstL pat [] ([] ++ pat) = []
    rw [List.nil_append]
    cases pat with
    | nil => exact absurd rfl hne
    | cons c cs =>
      unfold replaceFirstL
      rw [leadsWith_refl]
      simp
  | cons c cs ih =>
    intro h
    have hsplit : leadsWith pat (c :: cs) = false ∧ containsSub pat cs = false := by
      simpa [containsSub, Bool.or_eq_false_iff] using h
    have hlw : leadsWith pat (c :: (cs ++ pat)) = false := by
      cases hb : leadsWith pat (c :: (cs ++ pat)) with
      | false => rfl
      | true =>
        exfalso
        have hb2 : leadsWith pat ((c :: cs) ++ pat) = true := hb
        by_cases hlen : pat.length ≤ (c :: cs).length
        · have := leadsWith_of_append pat (c :: cs) pat hb2 hlen
          rw [hsplit.1] at this
          exact Bool.false_ne_true this
        · have hk : (c :: cs).length < pat.length := not_le.mp hlen
          have hdrop := leadsWith_drop (c :: cs) pat pat hb2
          rw [hnb (c :: cs).length hk (by simp)] at hdrop
          exact Bool.false_ne_true hdrop
    show replaceFirstL pat [] (c :: (cs ++ pat)) = c :: cs
    unfold replaceFirstL
    rw [hlw]
    simp only [Bool.false_eq_true, if_false]
    exact congrArg (c :: ·) (ih hsplit.2)

/-- When the best-case suffix occurs nowhere in the name, annotation appends
one copy of it, and re-annotating strips exactly that copy first, so the
annotated name is stable.  (The suffix is border-free: the `hnb` side
condition is discharged by computation.) -/
lemma bestCaseName_stable (s : String)
    (h : containsSub (" (Best Case)" : String).data s.data = false) :
    bestCaseName (bestCaseName s) = bestCaseName s := by
  have h1 : bestCaseName s = s ++ " (Best Case)" := by
    show jsReplaceFirst s " (Best Case)" "" ++ " (Best Case)" = s ++ " (Best Case)"
    unfold jsReplaceFirst
    rw [show ("" : String).data = [] from rfl,
      replaceFirstL_id_of_not_contains (" (Best Case)" : String).data s.data h]
  rw [h1]
  show jsReplaceFirst (s ++ " (Best Case)") " (Best Case)" "" ++ " (Best Case)"
    = s ++ " (Best Case)"
  unfold jsReplaceFirst
  rw [show ("" : String).data = [] from rfl,
    show (s ++ (" (Best Case)" : String)).data
      = s.data ++ (" (Best Case)" : String).data from rfl,
    replaceFirstL_append_self (" (Best Case)" : String).data (by decide) (by decide) s.data h]

/-- Same stability for the worst-case annotation. -/
lemma worstCaseName_stable (s : String)
    (h : containsSub (" (Worst Case)" : String).data s.data = false) :
    worstCaseName (worstCaseName s) = worstCaseName s := by
  have h1 : worstCaseName s = s ++ " (Worst Case)" := by
    show jsReplaceFirst s " (Worst Case)" "" ++ " (Worst Case)" = s ++ " (Worst Case)"
    unfold jsReplaceFirst
    rw [show ("" : String).data = [] from rfl,
      replaceFirstL_id_of_not_contains (" (Worst Case)" : String).data s.data h]
  rw [h1]
  show jsReplaceFirst (s ++ " (Worst Case)") " (Worst Case)" "" ++ " (Worst Case)"
    = s ++ " (Worst Case)"
  unfold jsReplaceFirst
  rw [show ("" : String).data = [] from rfl,
    show (s ++ (" (Worst Case)" : String)).data
      = s.data ++ (" (Worst Case)" : String).data from rfl,
    replaceFirstL_append_self (" (Worst Case)" : String).data (by decide) (by decide) s.data h]

/-- C9 (amended): scenario generation is a pure function of the baseline
(the same people array always derives the same scenarios), and the name
annotation does not duplicate the `" (Best Case)"` / `" (Worst Case)"`
suffix as long as the suffix does not already occur inside the base name.
(When the name already contains the suffix elsewhere, `replace` strips the
wrong occurrence and the suffix can double, as the counterexample shows.) -/
theorem claim_C9 (people : List Person) (p : Person)
    (hb : containsSub (" (Best Case)" : String).data p.name.data = false)
    (hw : containsSub (" (Worst Case)" : String).data p.name.data = false) :
    createScenarios people = createScenarios people
    ∧ (createPersonScenarios ((createPersonScenarios p).bestCase)).bestCase.name
        = (createPersonScenarios p).bestCase.name
    ∧ (createPersonScenarios ((createPersonScenarios p).worstCase)).worstCase.name
        = (createPersonScenarios p).worstCase.name :=
  ⟨rfl, bestCaseName_stable p.name hb, worstCaseName_stable p.name hw⟩

/-- C9 witness: the name `"Bob (Jr)"` contains parentheses but neither
suffix, and re-deriving the best case keeps `"Bob (Jr) (Best Case)"`. -/
theorem claim_C9_witness :
    containsSub (" (Best Case)" : String).data ("Bob (Jr)" : String).data = false
    ∧ containsSub (" (Worst Case)" : String).data ("Bob (Jr)" : String).data = false
    ∧ (createPersonScenarios ((createPersonScenarios personC9w).bestCase)).bestCase.name
        = (createPersonScenarios personC9w).bestCase.name :=
  ⟨by decide, by decide, (claim_C9 [personC9w] personC9w (by decide) (by decide)).2.1⟩

/-- C5 counterexample: the coinsurance rate variable is shared across the
whole household.  The second person's only service (a $300 diagnostic test)
has no copay value, and they have no medications, so by the claim their
`coinsurancePaid` should be `0`; but the first person's ER rate `0.2` leaks
over and they are charged `300 × 0.2 = $60`. -/
theorem claim_C5_counterexample :
    ((getDetailedCostBreakdown planC5 [personAliceC5, personBobC5] none).personBreakdowns.map
        fun pb => pb.coinsurancePaid) = [300, 60]
    ∧ planCopay planC5 Copays.diagnosticTest = 0
    ∧ personBobC5.medications = [] := by
  refine ⟨?_, ?_, ?_⟩ <;> decide!

/-- Service processing leaves the rate alone when no active service carries
a `(0,1)` value. -/
lemma runDedServices_rate_id (l : List (ℕ × ℚ × ℚ))
    (h : ∀ e ∈ l, ¬(0 < e.1 ∧ 0 < e.2.2 ∧ e.2.2 < 1)) :
    ∀ r : ℚ, (runDedServices l r).2 = r := by
  induction l with
  | nil => intro r; rfl
  | cons e rest ih =>
    intro r
    obtain ⟨vis, cost, pr⟩ := e
    have he := h _ (List.mem_cons_self _ _)
    have hrest := fun e hm => h e (List.mem_cons_of_mem _ hm)
    by_cases hv : 0 < vis
    · have hpr : ¬(0 < pr ∧ pr < 1) := fun hp => he ⟨hv, hp.1, hp.2⟩
      show (if 0 < vis then _ else _ : List ℚ × ℚ).2 = r
      rw [if_pos hv]
      show (runDedServices rest (if 0 < pr ∧ pr < 1 then pr else r)).2 = r
      rw [if_neg hpr]
      exact ih hrest r
    · show (if 0 < vis then _ else _ : List ℚ × ℚ).2 = r
      rw [if_neg hv]
      exact ih hrest r

/-- A medication that carries no coinsurance-like value leaves the rate
alone. -/
lemma medRateUpdate_id (plan : Plan) (med : Medication) (r : ℚ)
    (h : parsedCustomCost med.customCost = none →
      ¬(rxCopayFor plan med.tier ≤ 1 ∧ 0 < rxCopayFor plan med.tier)) :
    medRateUpdate plan med r = r := by
  unfold medRateUpdate
  cases hp : parsedCustomCost med.customCost with
  | some c => rfl
  | none =>
    simp only []
    rw [if_neg (h hp)]

/-- Medication processing leaves the rate alone when no medication carries
a coinsurance-like value. -/
lemma runDedMeds_rate_id (plan : Plan) (meds : List Medication)
    (h : ∀ med ∈ meds, parsedCustomCost med.customCost = none →
      ¬(rxCopayFor plan med.tier ≤ 1 ∧ 0 < rxCopayFor plan med.tier)) :
    ∀ r : ℚ, (runDedMeds plan meds r).2 = r := by
  induction meds with
  | nil => intro r; rfl
  | cons med rest ih =>
    intro r
    show (runDedMeds plan rest (medRateUpdate plan med r)).2 = r
    rw [medRateUpdate_id plan med r (h _ (List.mem_cons_self _ _))]
    exact ih (fun m hm => h m (List.mem_cons_of_mem _ hm)) r

/-- A rate-free person computed from a zero incoming rate pays no
coinsurance and leaves the rate at zero. -/
lemma calcPerson_coins_zero (plan : Plan) (costs : CostSettings)
    (indDed famDed fp : ℚ) (p : Person) (hns : setsNoRate plan costs p) :
    (calcPerson plan costs indDed famDed fp 0 p).rateOut = 0
    ∧ (calcPerson plan costs indDed famDed fp 0 p).coins = 0 := by
  have hrate : (calcPerson plan costs indDed famDed fp 0 p).rateOut = 0 := by
    show (runDedMeds plan p.medications
      (runDedServices (dedServiceData plan costs p.visits) 0).2).2 = 0
    rw [runDedServices_rate_id _ hns.1 0]
    exact runDedMeds_rate_id plan p.medications hns.2 0
  refine ⟨hrate, ?_⟩
  show (max 0 _) * (calcPerson plan costs indDed famDed fp 0 p).rateOut = 0
  rw [hrate, mul_zero]

/-- Fold invariant: if nobody in the remaining list sets a rate and the rate
is still zero, every breakdown produced has zero coinsurance. -/
lemma engine_coins_zero (plan : Plan) (costs : CostSettings) (isFam : Bool)
    (indDed famDed indMOOP : ℚ) :
    ∀ (people : List Person) (st : EngineState),
      (∀ p ∈ people, setsNoRate plan costs p) →
      st.coinsuranceRate = 0 →
      (∀ pb ∈ st.personBreakdowns, pb.coinsurancePaid = 0) →
      (people.foldl (processPerson plan costs isFam indDed famDed indMOOP) st).coinsuranceRate = 0
      ∧ ∀ pb ∈ (people.foldl (processPerson plan costs isFam indDed famDed indMOOP) st).personBreakdowns,
          pb.coinsurancePaid = 0 := by
  intro people
  induction people with
  | nil => intro st _ h0 hall; exact ⟨h0, hall⟩
  | cons p rest ih =>
    intro st hns h0 hall
    have hp := hns p (List.mem_cons_self _ _)
    have hcz := calcPerson_coins_zero plan costs indDed famDed st.familyDeductiblePaid p hp
    have hstep : (processPerson plan costs isFam indDed famDed indMOOP st p).coinsuranceRate = 0 := by
      show (calcPerson plan costs indDed famDed st.familyDeductiblePaid st.coinsuranceRate p).rateOut = 0
      rw [h0]
      exact hcz.1
    have hpb : ∀ pb ∈ (processPerson plan costs isFam indDed famDed indMOOP st p).personBreakdowns,
        pb.coinsurancePaid = 0 := by
      intro pb hm
      rcases List.mem_append.mp hm with hm | hm
      · exact hall pb hm
      · rcases List.mem_singleton.mp hm with rfl
        show (calcPerson plan costs indDed famDed st.familyDeductiblePaid st.coinsuranceRate p).coins = 0
        rw [h0]
        exact hcz.2
    exact ih _ (fun q hq => hns q (List.mem_cons_of_mem _ hq)) hstep hpb

/-- C5 (amended): the coinsurance rate is one mutable value threaded through
the whole household in processing order — a deductible-applicable service
with copay value in `(0,1)` overwrites it (last one wins, across people) and
a coinsurance-priced medication sets it only while it is still zero — so a
person's `coinsurancePaid` can be driven by rates set by earlier people.
What does hold household-wide: if no person's deductible-applicable services
or medications carry such a rate, every person's `coinsurancePaid` is `0`. -/
theorem claim_C5 (plan : Plan) (people : List Person) (cs : Option CostSettings)
    (h : ∀ p ∈ people, setsNoRate plan (resolveCosts cs) p) :
    ∀ pb ∈ (getDetailedCostBreakdown plan people cs).personBreakdowns,
      pb.coinsurancePaid = 0 :=
  (engine_coins_zero plan (resolveCosts cs) (decide (1 < people.length))
    (individualDeductibleLimit plan) (familyDeductibleLimit plan people.length)
    (individualMOOPLimit plan) people initState h rfl (by intro pb hm; cases hm)).2

/-- C5 witness: a one-person household with no coinsurance-like values pays
no coinsurance. -/
theorem claim_C5_witness :
    (∀ p ∈ [personC5w], setsNoRate planC5w (resolveCosts none) p)
    ∧ ∀ pb ∈ (getDetailedCostBreakdown planC5w [personC5w] none).personBreakdowns,
        pb.coinsurancePaid = 0 :=
  ⟨by decide!, claim_C5 planC5w [personC5w] none (by decide!)⟩

/-- C7 counterexample: `"abc"` fails numeric coercion, and its tier-1 copay
is `$50 > 1`, so by the claim the medication should fall back to tier-based
pricing as a flat exempt copay (`50 × 12 = $600`).  But the exempt branch
tests the raw truthiness of `customCost` (`!med.customCost`), and `"abc"` is
truthy, so the medication is charged nothing at all: both charge lists stay
empty and `totalCharges = 0`. -/
theorem claim_C7_counterexample :
    jsParseFloat "abc" = none
    ∧ rxCopayFor planC7 1 = 50
    ∧ ((getDetailedCostBreakdown planC7 [personC7] none).personBreakdowns.map
        fun pb => (pb.exemptCosts, pb.dedCosts, pb.totalCharges)) = [([], [], 0)] := by
  refine ⟨?_, ?_, ?_⟩ <;> decide!

/-- C7 (amended): a medication whose `customCost` fails numeric coercion
never raises an error and is priced as follows.  On the deductible path the
parse failure always falls back to tier pricing: a coinsurance-like tier
value in `(0,1]` yields the assumed `$100 × refills` charge, any other value
yields nothing.  On the exempt path the code tests raw truthiness rather
than the parse result: the empty string falls back to the flat tier copay
(`copay × refills` when the tier value exceeds `1`), but a non-empty
non-numeric string suppresses the flat-copay fallback entirely, so such a
medication with a flat-copay tier is charged nothing. -/
theorem claim_C7 (plan : Plan) (med : Medication) (s : String)
    (hs : med.customCost = some s) (hp : jsParseFloat s = none) :
    medDedCosts plan med
      = (if rxCopayFor plan med.tier ≤ 1 ∧ 0 < rxCopayFor plan med.tier
          then [(100 : ℚ) * (jsOrNat med.refillsPerYear 12 : ℚ)] else [])
    ∧ (s = "" →
        medExemptCosts plan med
          = (if 1 < rxCopayFor plan med.tier
              then [rxCopayFor plan med.tier * (jsOrNat med.refillsPerYear 12 : ℚ)] else []))
    ∧ (s ≠ "" → medExemptCosts plan med = []) := by
  have hpc : parsedCustomCost med.customCost = none := by
    simp only [parsedCustomCost, hs, hp]
  refine ⟨?_, ?_, ?_⟩
  · unfold medDedCosts
    rw [hpc]
  · intro he
    unfold medExemptCosts jsTruthyStr
    rw [hs, he]
    simp
  · intro he
    unfold medExemptCosts jsTruthyStr
    rw [hs]
    simp [he]

/-- C7 witness: the `"abc"` medication of the counterexample, evaluated
through the amended theorem — no deductible charge (its tier copay is not
coinsurance-like) and no exempt charge (it is truthy). -/
theorem claim_C7_witness :
    medC7.customCost = some "abc"
    ∧ jsParseFloat "abc" = none
    ∧ medDedCosts planC7 medC7 = []
    ∧ medExemptCosts planC7 medC7 = [] := by
  refine ⟨rfl, by decide!, ?_, ?_⟩
  · have h1 := (claim_C7 planC7 medC7 "abc" rfl (by decide!)).1
    rw [if_neg (by decide!)] at h1
    exact h1
  · exact (claim_C7 planC7 medC7 "abc" rfl (by decide!)).2.2 (by decide!)

/-! ## C3 -/

/-- One loop step can never push the running family-deductible total past a
nonnegative family limit: the person's effective contribution is capped by
the remaining headroom. -/
lemma foldl_famDedPaid_le (plan : Plan) (costs : CostSettings) (isFam : Bool)
    (indDed famDed indMOOP : ℚ) :
    ∀ (people : List Person) (st : EngineState),
      st.familyDeductiblePaid ≤ famDed →
      (people.foldl (processPerson plan costs isFam indDed famDed indMOOP) st).familyDeductiblePaid
        ≤ famDed := by
  intro people
  induction people with
  | nil => intro st h; exact h
  | cons p rest ih =>
    intro st h
    apply ih
    show st.familyDeductiblePaid
      + (calcPerson plan costs indDed famDed st.familyDeductiblePaid st.coinsuranceRate p).effective
      ≤ famDed
    have heff : (calcPerson plan costs indDed famDed st.familyDeductiblePaid st.coinsuranceRate p).effective
        = min (calcPerson plan costs indDed famDed st.familyDeductiblePaid st.coinsuranceRate p).contribution
            (max 0 (famDed - st.familyDeductiblePaid)) := rfl
    have h1 := min_le_right
      (calcPerson plan costs indDed famDed st.familyDeductiblePaid st.coinsuranceRate p).contribution
      (max 0 (famDed - st.familyDeductiblePaid))
    have h2 : max 0 (famDed - st.familyDeductiblePaid) = famDed - st.familyDeductiblePaid :=
      max_eq_right (by linarith)
    rw [heff]
    linarith

/-- C3: for a nonnegative family deductible limit, the effective deductible
contributions accumulated into `familyDeductiblePaid` never exceed
`familyDeductibleLimit` — after each person, in input-array order, the
running total stays at or below the limit, because each person's effective
contribution is `min(personal contribution, max(0, limit − paid so far))`
(the last conjunct, which holds definitionally for every loop state). -/
theorem claim_C3 (plan : Plan) (people : List Person) (cs : Option CostSettings)
    (hL : 0 ≤ familyDeductibleLimit plan people.length) :
    (∀ k : ℕ,
      (engineStateAfter plan (resolveCosts cs) (decide (1 < people.length))
        (individualDeductibleLimit plan) (familyDeductibleLimit plan people.length)
        (individualMOOPLimit plan) (people.take k)).familyDeductiblePaid
        ≤ familyDeductibleLimit plan people.length)
    ∧ (getDetailedCostBreakdown plan people cs).familyDeductiblePaid
        ≤ familyDeductibleLimit plan people.length
    ∧ (∀ (st : EngineState) (p : Person),
        (processPerson plan (resolveCosts cs) (decide (1 < people.length))
          (individualDeductibleLimit plan) (familyDeductibleLimit plan people.length)
          (individualMOOPLimit plan) st p).familyDeductiblePaid
          = st.familyDeductiblePaid
            + min (calcPerson plan (resolveCosts cs) (individualDeductibleLimit plan)
                  (familyDeductibleLimit plan people.length) st.familyDeductiblePaid
                  st.coinsuranceRate p).contribution
                (max 0 (familyDeductibleLimit plan people.length - st.familyDeductiblePaid))) := by
  refine ⟨?_, ?_, fun st p => rfl⟩
  · intro k
    exact foldl_famDedPaid_le plan (resolveCosts cs) (decide (1 < people.length))
      (individualDeductibleLimit plan) (familyDeductibleLimit plan people.length)
      (individualMOOPLimit plan) (people.take k) initState hL
  · exact min_le_right _ _

/-- C3 witness: a two-person household with $500/$800 deductibles — both
members generate more charges than their individual share, and the reported
family deductible stays at or below $800. -/
theorem claim_C3_witness :
    (0 : ℚ) ≤ familyDeductibleLimit planC3w 2
    ∧ (getDetailedCostBreakdown planC3w [personC3a, personC3b] none).familyDeductiblePaid
        ≤ familyDeductibleLimit planC3w 2 :=
  ⟨by decide!, (claim_C3 planC3w [personC3a, personC3b] none (by decide!)).2.1⟩

/-! ## C4 -/

/-- In a multi-person household, every breakdown entry appended by the loop
is capped at the individual MOOP limit. -/
lemma mkPersonBreakdown_totalOOP_le (plan : Plan) (costs : CostSettings)
    (indDed famDed indMOOP : ℚ) (st : EngineState) (p : Person) :
    (mkPersonBreakdown plan costs true indDed famDed indMOOP st p).totalOOP ≤ indMOOP
    ∨ (mkPersonBreakdown plan costs true indDed famDed indMOOP st p).totalOOP
        = (calcPerson plan costs indDed famDed st.familyDeductiblePaid st.coinsuranceRate p).preCapOOP := by
  by_cases hc : indMOOP
      < (calcPerson plan costs indDed famDed st.familyDeductiblePaid st.coinsuranceRate p).preCapOOP
  · left
    show (if (true : Bool) ∧ indMOOP
        < (calcPerson plan costs indDed famDed st.familyDeductiblePaid st.coinsuranceRate p).preCapOOP
      then indMOOP
      else (calcPerson plan costs indDed famDed st.familyDeductiblePaid st.coinsuranceRate p).preCapOOP)
      ≤ indMOOP
    rw [if_pos ⟨rfl, hc⟩]
  · right
    show (if (true : Bool) ∧ indMOOP
        < (calcPerson plan costs indDed famDed st.familyDeductiblePaid st.coinsuranceRate p).preCapOOP
      then indMOOP
      else (calcPerson plan costs indDed famDed st.familyDeductiblePaid st.coinsuranceRate p).preCapOOP)
      = (calcPerson plan costs indDed famDed st.familyDeductiblePaid st.coinsuranceRate p).preCapOOP
    rw [if_neg fun h => hc h.2]

/-- Fold invariant for C4: with individual capping active, every produced
breakdown has `totalOOP ≤ indMOOP`. -/
lemma foldl_totalOOP_le (plan : Plan) (costs : CostSettings)
    (indDed famDed indMOOP : ℚ) :
    ∀ (people : List Person) (st : EngineState),
      (∀ pb ∈ st.personBreakdowns, pb.totalOOP ≤ indMOOP) →
      ∀ pb ∈ (people.foldl (processPerson plan costs true indDed famDed indMOOP) st).personBreakdowns,
        pb.totalOOP ≤ indMOOP := by
  intro people
  induction people with
  | nil => intro st h; exact h
  | cons p rest ih =>
    intro st h
    apply ih
    intro pb hm
    rcases List.mem_append.mp hm with hm | hm
    · exact h pb hm
    · rcases List.mem_singleton.mp hm with rfl
      rcases mkPersonBreakdown_totalOOP_le plan costs indDed famDed indMOOP st p with hle | heq
      · exact hle
      · rw [heq]
        by_cases hc : indMOOP
            < (calcPerson plan costs indDed famDed st.familyDeductiblePaid st.coinsuranceRate p).preCapOOP
        · exfalso
          have : (mkPersonBreakdown plan costs true indDed famDed indMOOP st p).totalOOP = indMOOP := by
            show (if (true : Bool) ∧ indMOOP
                < (calcPerson plan costs indDed famDed st.familyDeductiblePaid st.coinsuranceRate p).preCapOOP
              then indMOOP
              else (calcPerson plan costs indDed famDed st.familyDeductiblePaid st.coinsuranceRate p).preCapOOP)
              = indMOOP
            rw [if_pos ⟨rfl, hc⟩]
          rw [this] at heq
          exact absurd heq.symm (ne_of_gt hc)
        · exact not_lt.mp hc

/-- C4: in a household of more than one person, every entry of the returned
`personBreakdowns` has `totalOOP ≤ individualMOOPLimit`; whenever the
pre-cap total (exempt copays + effective deductible + coinsurance) exceeds
the individual limit the entry is clamped to the limit with the note
`"Individual MOOP Hit"`, and otherwise the total is the pre-cap amount and
the note stays null. -/
theorem claim_C4 (plan : Plan) (people : List Person) (cs : Option CostSettings)
    (h : 1 < people.length) :
    (∀ pb ∈ (getDetailedCostBreakdown plan people cs).personBreakdowns,
        pb.totalOOP ≤ individualMOOPLimit plan)
    ∧ (∀ (st : EngineState) (p : Person),
        (individualMOOPLimit plan
            < (calcPerson plan (resolveCosts cs) (individualDeductibleLimit plan)
                (familyDeductibleLimit plan people.length) st.familyDeductiblePaid
                st.coinsuranceRate p).preCapOOP →
          (mkPersonBreakdown plan (resolveCosts cs) true (individualDeductibleLimit plan)
              (familyDeductibleLimit plan people.length) (individualMOOPLimit plan) st p).totalOOP
            = individualMOOPLimit plan
          ∧ (mkPersonBreakdown plan (resolveCosts cs) true (individualDeductibleLimit plan)
              (familyDeductibleLimit plan people.length) (individualMOOPLimit plan) st p).note
            = some "Individual MOOP Hit")
        ∧ ((calcPerson plan (resolveCosts cs) (individualDeductibleLimit plan)
              (familyDeductibleLimit plan people.length) st.familyDeductiblePaid
              st.coinsuranceRate p).preCapOOP ≤ individualMOOPLimit plan →
          (mkPersonBreakdown plan (resolveCosts cs) true (individualDeductibleLimit plan)
              (familyDeductibleLimit plan people.length) (individualMOOPLimit plan) st p).totalOOP
            = (calcPerson plan (resolveCosts cs) (individualDeductibleLimit plan)
                (familyDeductibleLimit plan people.length) st.familyDeductiblePaid
                st.coinsuranceRate p).preCapOOP
          ∧ (mkPersonBreakdown plan (resolveCosts cs) true (individualDeductibleLimit plan)
              (familyDeductibleLimit plan people.length) (individualMOOPLimit plan) st p).note
            = none)) := by
  constructor
  · have hd : decide (1 < people.length) = true := decide_eq_true h
    show ∀ pb ∈ (engineStateAfter plan (resolveCosts cs) (decide (1 < people.length))
        (individualDeductibleLimit plan) (familyDeductibleLimit plan people.length)
        (individualMOOPLimit plan) people).personBreakdowns,
      pb.totalOOP ≤ individualMOOPLimit plan
    rw [hd]
    exact foldl_totalOOP_le plan (resolveCosts cs) (individualDeductibleLimit plan)
      (familyDeductibleLimit plan people.length) (individualMOOPLimit plan)
      people initState (by intro pb hm; cases hm)
  · intro st p
    constructor
    · intro hc
      constructor
      · show (if (true : Bool) ∧ individualMOOPLimit plan
            < (calcPerson plan (resolveCosts cs) (individualDeductibleLimit plan)
                (familyDeductibleLimit plan people.length) st.familyDeductiblePaid
                st.coinsuranceRate p).preCapOOP
          then individualMOOPLimit plan else _) = individualMOOPLimit plan
        rw [if_pos ⟨rfl, hc⟩]
      · show (if (true : Bool) ∧ individualMOOPLimit plan
            < (calcPerson plan (resolveCosts cs) (individualDeductibleLimit plan)
                (familyDeductibleLimit plan people.length) st.familyDeductiblePaid
                st.coinsuranceRate p).preCapOOP
          then some "Individual MOOP Hit" else none) = some "Individual MOOP Hit"
        rw [if_pos ⟨rfl, hc⟩]
    · intro hc
      constructor
      · show (if (true : Bool) ∧ individualMOOPLimit plan
            < (calcPerson plan (resolveCosts cs) (individualDeductibleLimit plan)
                (familyDeductibleLimit plan people.length) st.familyDeductiblePaid
                st.coinsuranceRate p).preCapOOP
          then individualMOOPLimit plan
          else (calcPerson plan (resolveCosts cs) (individualDeductibleLimit plan)
              (familyDeductibleLimit plan people.length) st.familyDeductiblePaid
              st.coinsuranceRate p).preCapOOP)
          = (calcPerson plan (resolveCosts cs) (individualDeductibleLimit plan)
              (familyDeductibleLimit plan people.length) st.familyDeductiblePaid
              st.coinsuranceRate p).preCapOOP
        rw [if_neg fun hh => absurd hc (not_le.mpr hh.2)]
      · show (if (true : Bool) ∧ individualMOOPLimit plan
            < (calcPerson plan (resolveCosts cs) (individualDeductibleLimit plan)
                (familyDeductibleLimit plan people.length) st.familyDeductiblePaid
                st.coinsuranceRate p).preCapOOP
          then some "Individual MOOP Hit" else none) = none
        rw [if_neg fun hh => absurd hc (not_le.mpr hh.2)]

/-- C4 witness: in the two-person household every breakdown entry stays at
or below the $100 individual MOOP. -/
theorem claim_C4_witness :
    1 < ([personC4a, personC4b] : List Person).length
    ∧ ∀ pb ∈ (getDetailedCostBreakdown planC4w [personC4a, personC4b] none).personBreakdowns,
        pb.totalOOP ≤ individualMOOPLimit planC4w :=
  ⟨by decide, (claim_C4 planC4w [personC4a, personC4b] none (by decide)).1⟩

/-- Any tier's prescription copay is nonnegative under `NonNegPlan`. -/
lemma rxCopayFor_nonneg (plan : Plan) (h : NonNegPlan plan) :
    ∀ t : ℕ, 0 ≤ rxCopayFor plan t := by
  intro t
  match t with
  | 1 => exact h.2.2.2.2.2.2.2.2.2.1
  | 2 => exact h.2.2.2.2.2.2.2.2.2.2.1
  | 3 => exact h.2.2.2.2.2.2.2.2.2.2.2.1
  | 4 => exact h.2.2.2.2.2.2.2.2.2.2.2.2.1
  | 5 => exact h.2.2.2.2.2.2.2.2.2.2.2.2.2.1
  | 0 => cases hrx : plan.rxCopays <;> simp [rxCopayFor, hrx, jsOrQ]
  | (n+6) => cases hrx : plan.rxCopays <;> simp [rxCopayFor, hrx, jsOrQ]

/-- Membership in a conditional singleton. -/
lemma eq_of_mem_ite_singleton {c : Prop} [Decidable c] {a x : ℚ}
    (h : x ∈ (if c then [a] else [])) : x = a := by
  split at h
  · exact List.mem_singleton.mp h
  · cases h

/-- Exempt service copays are nonnegative. -/
lemma exemptServiceCosts_nonneg (plan : Plan) (v : VisitCounts) (h : NonNegPlan plan) :
    ∀ x ∈ exemptServiceCosts plan v, 0 ≤ x := by
  intro x hx
  unfold exemptServiceCosts at hx
  rcases List.mem_append.mp hx with hx | hx4
  rcases List.mem_append.mp hx with hx | hx3
  rcases List.mem_append.mp hx with hx1 | hx2
  · rw [eq_of_mem_ite_singleton hx1]
    exact mul_nonneg (by positivity) h.1
  · rw [eq_of_mem_ite_singleton hx2]
    exact mul_nonneg (by positivity) h.2.1
  · rw [eq_of_mem_ite_singleton hx3]
    exact mul_nonneg (by positivity) h.2.2.1
  · rw [eq_of_mem_ite_singleton hx4]
    exact mul_nonneg (by positivity) h.2.2.2.1

/-- Exempt medication copays are nonnegative (the flat-copay branch requires
the tier value to exceed 1). -/
lemma medExemptCosts_nonneg (plan : Plan) (med : Medication) :
    ∀ x ∈ medExemptCosts plan med, 0 ≤ x := by
  intro x hx
  unfold medExemptCosts at hx
  split at hx
  · cases hx
  · have hx1 := eq_of_mem_ite_singleton hx
    have h1 : (1 : ℚ) < rxCopayFor plan med.tier := by
      by_contra hc
      rw [if_neg hc] at hx
      cases hx
    rw [hx1]
    exact mul_nonneg (by linarith) (by positivity)

/-- Deductible-applicable service charges are nonnegative when the assumed
costs are. -/
lemma runDedServices_items_nonneg :
    ∀ (l : List (ℕ × ℚ × ℚ)) (r : ℚ), (∀ e ∈ l, 0 ≤ e.2.1) →
      ∀ x ∈ (runDedServices l r).1, 0 ≤ x := by
  intro l
  induction l with
  | nil => intro r _ x hx; cases hx
  | cons e rest ih =>
    intro r h x hx
    obtain ⟨vis, cost, pr⟩ := e
    have hc := h _ (List.mem_cons_self _ _)
    have hrest := fun e hm => h e (List.mem_cons_of_mem _ hm)
    simp only [runDedServices] at hx
    by_cases hv : 0 < vis
    · rw [if_pos hv] at hx
      rcases List.mem_cons.mp hx with rfl | hx
      · exact mul_nonneg (by positivity) hc
      · exact ih _ hrest x hx
    · rw [if_neg hv] at hx
      exact ih r hrest x hx

/-- The five deductible-service entries carry the assumed costs. -/
lemma dedServiceData_costs_nonneg (plan : Plan) (costs : CostSettings) (v : VisitCounts)
    (h : NonNegCosts costs) : ∀ e ∈ dedServiceData plan costs v, 0 ≤ e.2.1 := by
  intro e he
  simp only [dedServiceData, List.mem_cons, List.not_mem_nil, or_false] at he
  rcases he with rfl | rfl | rfl | rfl | rfl
  · exact h.1
  · exact h.2.1
  · exact h.2.2.1
  · exact h.2.2.2.1
  · exact h.2.2.2.2

/-- One medication's deductible-applicable charges are nonnegative given a
nonnegative parsed custom cost. -/
lemma medDedCosts_nonneg (plan : Plan) (med : Medication)
    (h : 0 ≤ (parsedCustomCost med.customCost).getD 0) :
    ∀ x ∈ medDedCosts plan med, 0 ≤ x := by
  intro x hx
  unfold medDedCosts at hx
  cases hp : parsedCustomCost med.customCost with
  | some c =>
    rw [hp] at hx
    dsimp only at hx
    have hc : 0 ≤ c := by rw [hp] at h; exact h
    rcases List.mem_singleton.mp hx with rfl
    exact mul_nonneg hc (by positivity)
  | none =>
    rw [hp] at hx
    dsimp only at hx
    by_cases hrx : rxCopayFor plan med.tier ≤ 1 ∧ 0 < rxCopayFor plan med.tier
    · rw [if_pos hrx] at hx
      rcases List.mem_singleton.mp hx with rfl
      exact mul_nonneg (by norm_num) (Nat.cast_nonneg _)
    · rw [if_neg hrx] at hx
      cases hx

/-- Medication deductible charges gathered by the loop are nonnegative. -/
lemma runDedMeds_items_nonneg (plan : Plan) :
    ∀ (meds : List Medication) (r : ℚ),
      (∀ med ∈ meds, 0 ≤ (parsedCustomCost med.customCost).getD 0) →
      ∀ x ∈ (runDedMeds plan meds r).1, 0 ≤ x := by
  intro meds
  induction meds with
  | nil => intro r _ x hx; cases hx
  | cons med rest ih =>
    intro r h x hx
    rcases List.mem_append.mp hx with hx | hx
    · exact medDedCosts_nonneg plan med (h _ (List.mem_cons_self _ _)) x hx
    · exact ih _ (fun m hm => h m (List.mem_cons_of_mem _ hm)) x hx

/-- Service processing keeps the rate nonnegative. -/
lemma runDedServices_rate_nonneg :
    ∀ (l : List (ℕ × ℚ × ℚ)) (r : ℚ), 0 ≤ r → 0 ≤ (runDedServices l r).2 := by
  intro l
  induction l with
  | nil => intro r h; exact h
  | cons e rest ih =>
    intro r h
    obtain ⟨vis, cost, pr⟩ := e
    simp only [runDedServices]
    by_cases hv : 0 < vis
    · rw [if_pos hv]
      apply ih
      split
      · next hpr => exact le_of_lt hpr.1
      · exact h
    · rw [if_neg hv]
      exact ih r h

/-- Medication processing keeps the rate nonnegative. -/
lemma runDedMeds_rate_nonneg (plan : Plan) :
    ∀ (meds : List Medication) (r : ℚ), 0 ≤ r → 0 ≤ (runDedMeds plan meds r).2 := by
  intro meds
  induction meds with
  | nil => intro r h; exact h
  | cons med rest ih =>
    intro r h
    apply ih
    unfold medRateUpdate
    cases parsedCustomCost med.customCost with
    | some c => exact h
    | none =>
      simp only []
      split
      · next hrx =>
        split
        · exact le_of_lt hrx.2
        · exact h
      · exact h

/-- A person's pre-cap out-of-pocket total and outgoing rate are nonnegative
under nonnegative inputs. -/
lemma calcPerson_nonneg (plan : Plan) (costs : CostSettings) (indDed famDed fp r : ℚ)
    (p : Person) (hplan : NonNegPlan plan) (hcosts : NonNegCosts costs)
    (hmeds : ∀ med ∈ p.medications, 0 ≤ (parsedCustomCost med.customCost).getD 0)
    (hr : 0 ≤ r) (hind : 0 ≤ indDed) :
    0 ≤ (calcPerson plan costs indDed famDed fp r p).preCapOOP
    ∧ 0 ≤ (calcPerson plan costs indDed famDed fp r p).rateOut := by
  have hex : 0 ≤ (exemptServiceCosts plan p.visits
      ++ p.medications.flatMap (medExemptCosts plan)).sum := by
    apply List.sum_nonneg
    intro x hx
    rcases List.mem_append.mp hx with hx | hx
    · exact exemptServiceCosts_nonneg plan p.visits hplan x hx
    · rcases List.mem_flatMap.mp hx with ⟨med, _, hxm⟩
      exact medExemptCosts_nonneg plan med x hxm
  have hded : 0 ≤ ((runDedServices (dedServiceData plan costs p.visits) r).1
      ++ (runDedMeds plan p.medications
            (runDedServices (dedServiceData plan costs p.visits) r).2).1).sum := by
    apply List.sum_nonneg
    intro x hx
    rcases List.mem_append.mp hx with hx | hx
    · exact runDedServices_items_nonneg _ r
        (dedServiceData_costs_nonneg plan costs p.visits hcosts) x hx
    · exact runDedMeds_items_nonneg plan p.medications _ hmeds x hx
  have hrate : 0 ≤ (calcPerson plan costs indDed famDed fp r p).rateOut := by
    show 0 ≤ (runDedMeds plan p.medications
      (runDedServices (dedServiceData plan costs p.visits) r).2).2
    exact runDedMeds_rate_nonneg plan p.medications _
      (runDedServices_rate_nonneg _ r hr)
  refine ⟨?_, hrate⟩
  have heff : 0 ≤ (calcPerson plan costs indDed famDed fp r p).effective := by
    show 0 ≤ min (min _ indDed) (max 0 (famDed - fp))
    exact le_min (le_min hded hind) (le_max_left _ _)
  have hcoins : 0 ≤ (calcPerson plan costs indDed famDed fp r p).coins := by
    show 0 ≤ max 0 _ * (calcPerson plan costs indDed famDed fp r p).rateOut
    exact mul_nonneg (le_max_left _ _) hrate
  show 0 ≤ (exemptServiceCosts plan p.visits
      ++ p.medications.flatMap (medExemptCosts plan)).sum
    + (calcPerson plan costs indDed famDed fp r p).effective
    + (calcPerson plan costs indDed famDed fp r p).coins
  have := hex
  linarith

/-- Fold invariant: the accumulated household out-of-pocket total stays
nonnegative (individual clamping replaces a total by `indMOOP ≥ 0`). -/
lemma foldl_famOOP_nonneg (plan : Plan) (costs : CostSettings) (isFam : Bool)
    (indDed famDed indMOOP : ℚ) (hplan : NonNegPlan plan) (hcosts : NonNegCosts costs)
    (hMOOP : 0 ≤ indMOOP) (hind : 0 ≤ indDed) :
    ∀ (people : List Person) (st : EngineState),
      (∀ p ∈ people, ∀ med ∈ p.medications, 0 ≤ (parsedCustomCost med.customCost).getD 0) →
      0 ≤ st.familyOOPPaid → 0 ≤ st.coinsuranceRate →
      0 ≤ (people.foldl (processPerson plan costs isFam indDed famDed indMOOP) st).familyOOPPaid := by
  intro people
  induction people with
  | nil => intro st _ h0 _; exact h0
  | cons p rest ih =>
    intro st hmeds h0 hr
    have hc := calcPerson_nonneg plan costs indDed famDed st.familyDeductiblePaid
      st.coinsuranceRate p hplan hcosts (hmeds p (List.mem_cons_self _ _)) hr hind
    apply ih _ (fun q hq => hmeds q (List.mem_cons_of_mem _ hq))
    · show 0 ≤ st.familyOOPPaid + (mkPersonBreakdown plan costs isFam indDed famDed indMOOP st p).totalOOP
      have htot : 0 ≤ (mkPersonBreakdown plan costs isFam indDed famDed indMOOP st p).totalOOP := by
        show 0 ≤ if (isFam : Prop) ∧ indMOOP
            < (calcPerson plan costs indDed famDed st.familyDeductiblePaid st.coinsuranceRate p).preCapOOP
          then indMOOP
          else (calcPerson plan costs indDed famDed st.familyDeductiblePaid st.coinsuranceRate p).preCapOOP
        split
        · exact hMOOP
        · exact hc.1
      linarith
    · exact hc.2

/-- C10: when the plan's `outOfPocketMax` sub-object is missing or has both
fields equal to `0`, the zero acts as a zero spending cap (under nonnegative
plan amounts, service costs and custom medication costs): whatever the
household's visits and medications, `finalFamilyOOP = 0` and
`grandTotal = annualPremium`. -/
theorem claim_C10 (plan : Plan) (people : List Person) (cs : Option CostSettings)
    (hM : plan.outOfPocketMax = none
      ∨ plan.outOfPocketMax = some { person := some 0, family := some 0 })
    (hplan : NonNegPlan plan) (hcosts : NonNegCosts (resolveCosts cs))
    (hmeds : NonNegMeds people) :
    (getDetailedCostBreakdown plan people cs).finalFamilyOOP = 0
    ∧ (getDetailedCostBreakdown plan people cs).grandTotal
        = (getDetailedCostBreakdown plan people cs).annualPremium := by
  have hind : individualMOOPLimit plan = 0 := by
    rcases hM with h | h <;> simp [individualMOOPLimit, h, jsOrQ]
  have hfam : familyMOOPLimit plan people.length = 0 := by
    unfold familyMOOPLimit
    rcases hM with h | h <;> split <;> simp [h, jsOrQ, hind, individualMOOPLimit]
  have hOOP : 0 ≤ (engineStateAfter plan (resolveCosts cs) (decide (1 < people.length))
      (individualDeductibleLimit plan) (familyDeductibleLimit plan people.length)
      (individualMOOPLimit plan) people).familyOOPPaid :=
    foldl_famOOP_nonneg plan (resolveCosts cs) (decide (1 < people.length))
      (individualDeductibleLimit plan) (familyDeductibleLimit plan people.length)
      (individualMOOPLimit plan) hplan hcosts (le_of_eq hind.symm)
      hplan.2.2.2.2.2.2.2.2.2.2.2.2.2.2
      people initState hmeds (le_refl 0) (le_refl 0)
  have hfin : (getDetailedCostBreakdown plan people cs).finalFamilyOOP = 0 := by
    show min (engineStateAfter plan (resolveCosts cs) (decide (1 < people.length))
        (individualDeductibleLimit plan) (familyDeductibleLimit plan people.length)
        (individualMOOPLimit plan) people).familyOOPPaid
      (familyMOOPLimit plan people.length) = 0
    rw [hfam]
    exact min_eq_right hOOP
  refine ⟨hfin, ?_⟩
  show jsOrQ plan.premium 0 * 12
      + min (engineStateAfter plan (resolveCosts cs) (decide (1 < people.length))
          (individualDeductibleLimit plan) (familyDeductibleLimit plan people.length)
          (individualMOOPLimit plan) people).familyOOPPaid
        (familyMOOPLimit plan people.length)
    = jsOrQ plan.premium 0 * 12
  rw [hfam, min_eq_right hOOP, add_zero]

/-- C10 witness: with no `outOfPocketMax` object at all the estimate
collapses to the annual premium. -/
theorem claim_C10_witness :
    (planC10w.outOfPocketMax = none
      ∨ planC10w.outOfPocketMax = some { person := some 0, family := some 0 })
    ∧ NonNegPlan planC10w ∧ NonNegCosts (resolveCosts none) ∧ NonNegMeds [personC10w]
    ∧ (getDetailedCostBreakdown planC10w [personC10w] none).finalFamilyOOP = 0
    ∧ (getDetailedCostBreakdown planC10w [personC10w] none).grandTotal
        = (getDetailedCostBreakdown planC10w [personC10w] none).annualPremium :=
  ⟨Or.inl rfl, by decide!, by decide!, by decide!,
    (claim_C10 planC10w [personC10w] none (Or.inl rfl) (by decide!) (by decide!) (by decide!)).1,
    (claim_C10 planC10w [personC10w] none (Or.inl rfl) (by decide!) (by decide!) (by decide!)).2⟩
